import Mathlib

/-!
Verification development for the IQSSA queuing simulator (src/app.py).

The computational core of the program is embedded shallowly:
time values (numpy float64 in the source) are modelled as rationals,
the numpy arrays as lists, the mutable simulation loop as a fold that
updates the four tracking lists in place, and the global numpy
pseudo-random generator as explicit state passing over an abstract
generator interface.
-/

namespace IQSSA

/-- Abstract interface for the shared pseudo-random generator
(`np.random` in the source): a seeding function and a stateful draw. -/
structure RNG (σ : Type) where
  seed : ℕ → σ
  next : σ → ℚ × σ

/-- Draw `n` successive values from the generator, threading the state. -/
def draws {σ : Type} (g : RNG σ) : ℕ → σ → List ℚ × σ
  | 0, st => ([], st)
  | n + 1, st =>
    let p := g.next st
    let q := draws g n p.2
    (p.1 :: q.1, q.2)

/-- The errors the Run Simulation branch can surface.  `invalidParameter` is
the validation error of the spec's error taxonomy; the other three are the
Python exceptions the source can actually raise: `ZeroDivisionError` from
`1/rate` with a zero rate, `ValueError` from `np.random.exponential` with a
negative scale, and `IndexError` from `end_times[-1]` on an empty array. -/
inductive RunError
  | invalidParameter
  | zeroDivisionError
  | valueError
  | indexError
deriving DecidableEq

/-- Embedding of the Python expression `1/rate` (lines 29-30 of src/app.py):
division of floats by zero raises `ZeroDivisionError`. -/
def pyInv (rate : ℚ) : Except RunError ℚ :=
  if rate = 0 then Except.error RunError.zeroDivisionError
  else Except.ok (1 / rate)

/-- The value produced by a successful `np.random.exponential(scale, n)`
call: `n` draws with the scale factor applied to each abstract unit draw,
threading the generator state. -/
def scaledDraws {σ : Type} (g : RNG σ) (scale : ℚ) (n : ℕ) (st : σ) :
    List ℚ × σ :=
  ((draws g n st).1.map (fun u => u * scale), (draws g n st).2)

/-- Embedding of `np.random.exponential(scale, n)` (lines 29-30 of
src/app.py): numpy validates the scale and raises `ValueError` for a
negative scale before consuming any generator state; otherwise it produces
the scaled draws. -/
def npExponential {σ : Type} (g : RNG σ) (scale : ℚ) (n : ℕ) (st : σ) :
    Except RunError (List ℚ × σ) :=
  if scale < 0 then Except.error RunError.valueError
  else Except.ok (scaledDraws g scale n st)

/-- Embedding of lines 26-30 of src/app.py: `np.random.seed(random_seed)`
followed by the two `np.random.exponential(1/rate, n)` calls, each of which
can raise as in `pyInv` and `npExponential`.  The argument `st` is the
incoming global generator state; the single seed call overwrites it, and the
second draw sequence continues the stream left by the first. -/
def generateTimes {σ : Type} (g : RNG σ) (arrival_rate service_rate : ℚ)
    (n : ℕ) (random_seed : ℕ) (st : σ) :
    Except RunError ((List ℚ × List ℚ) × σ) :=
  let st0 := g.seed random_seed
  match pyInv arrival_rate with
  | Except.error e => Except.error e
  | Except.ok sc1 =>
    match npExponential g sc1 n st0 with
    | Except.error e => Except.error e
    | Except.ok p1 =>
      match pyInv service_rate with
      | Except.error e => Except.error e
      | Except.ok sc2 =>
        match npExponential g sc2 n p1.2 with
        | Except.error e => Except.error e
        | Except.ok p2 => Except.ok ((p1.1, p2.1), p2.2)

/-- Modelled from the spec for comparison with `generateTimes`: the spec's
description in which the generator is reseeded with the same seed value
before each of the two draw sequences, all else unchanged. -/
def generateTimesReseeded {σ : Type} (g : RNG σ)
    (arrival_rate service_rate : ℚ) (n : ℕ) (random_seed : ℕ) (st : σ) :
    Except RunError ((List ℚ × List ℚ) × σ) :=
  match pyInv arrival_rate with
  | Except.error e => Except.error e
  | Except.ok sc1 =>
    match npExponential g sc1 n (g.seed random_seed) with
    | Except.error e => Except.error e
    | Except.ok p1 =>
      match pyInv service_rate with
      | Except.error e => Except.error e
      | Except.ok sc2 =>
        match npExponential g sc2 n (g.seed random_seed) with
        | Except.error e => Except.error e
        | Except.ok p2 => Except.ok ((p1.1, p2.1), p2.2)

/-- A concrete instance of the generator interface whose state advances on
every draw, as the state of the generator in the source does: it emits the
successive naturals starting from the seed. -/
def counterRNG : RNG ℕ where
  seed := fun s => s
  next := fun st => ((st : ℚ), st + 1)

/-- Running cumulative sum with accumulator, the core of `np.cumsum`. -/
def cumsumAux (acc : ℚ) : List ℚ → List ℚ
  | [] => []
  | a :: l => (acc + a) :: cumsumAux (acc + a) l

/-- Embedding of `np.cumsum` (line 33 of src/app.py): strict cumulative sum,
entry `i` is the sum of the entries of `l` up to and including index `i`. -/
def cumsum (l : List ℚ) : List ℚ := cumsumAux 0 l

/-- The four tracking arrays of the simulation (lines 36-39 of src/app.py). -/
structure Trace where
  start_times : List ℚ
  end_times : List ℚ
  wait_times : List ℚ
  turnaround_times : List ℚ
deriving DecidableEq

/-- Embedding of `np.zeros(n)`. -/
def zeros (n : ℕ) : List ℚ := List.replicate n 0

/-- One iteration of the simulation loop (lines 43-46 of src/app.py),
updating the tracking lists at index `i`. -/
def simStep (arrival_times service_times : List ℚ) (T : Trace) (i : ℕ) :
    Trace :=
  let s := max (arrival_times.getD i 0) (T.end_times.getD (i - 1) 0)
  let e := s + service_times.getD i 0
  { start_times := T.start_times.set i s
    end_times := T.end_times.set i e
    wait_times := T.wait_times.set i (s - arrival_times.getD i 0)
    turnaround_times := T.turnaround_times.set i (e - arrival_times.getD i 0) }

/-- Embedding of the simulation loop (lines 36-46 of src/app.py):
zero-initialized tracking arrays, then `for i in range(1, num_customers)`. -/
def simulate (arrival_times service_times : List ℚ) (n : ℕ) : Trace :=
  (List.range' 1 (n - 1)).foldl (simStep arrival_times service_times)
    ⟨zeros n, zeros n, zeros n, zeros n⟩

/-- Closed-form recurrence for the end time of customer `i`:
zero at index `0` (never written by the loop), and
`max(arrival_time[i], end_time[i-1]) + service_time[i]` for `i ≥ 1`. -/
def end_time (arrival_times service_times : List ℚ) : ℕ → ℚ
  | 0 => 0
  | i + 1 =>
    max (arrival_times.getD (i + 1) 0) (end_time arrival_times service_times i)
      + service_times.getD (i + 1) 0

/-- Closed-form recurrence for the start time of customer `i`. -/
def start_time (arrival_times service_times : List ℚ) : ℕ → ℚ
  | 0 => 0
  | i + 1 =>
    max (arrival_times.getD (i + 1) 0) (end_time arrival_times service_times i)

/-- Closed-form recurrence for the waiting time of customer `i`. -/
def wait_time (arrival_times service_times : List ℚ) : ℕ → ℚ
  | 0 => 0
  | i + 1 => start_time arrival_times service_times (i + 1)
      - arrival_times.getD (i + 1) 0

/-- Closed-form recurrence for the turnaround time of customer `i`. -/
def turnaround_time (arrival_times service_times : List ℚ) : ℕ → ℚ
  | 0 => 0
  | i + 1 => end_time arrival_times service_times (i + 1)
      - arrival_times.getD (i + 1) 0

/-- Embedding of `np.mean`: sum divided by length. -/
def mean (l : List ℚ) : ℚ := l.sum / l.length

/-- The value of the indexing `end_times[-1]` on a NONEMPTY array: its last
entry.  The `IndexError` that the indexing raises on an empty array is
modelled by `npLastEnd`, which guards this value. -/
def lastEnd (end_times : List ℚ) : ℚ := end_times.getD (end_times.length - 1) 0

/-- Embedding of the indexing `end_times[-1]` (lines 51-52 of src/app.py):
Python raises `IndexError` on an empty array, and otherwise yields the last
entry. -/
def npLastEnd (end_times : List ℚ) : Except RunError ℚ :=
  if end_times.length = 0 then Except.error RunError.indexError
  else Except.ok (lastEnd end_times)

/-- Embedding of `utilization = np.sum(service_times) / end_times[-1]`
(line 51 of src/app.py).  The source divides in IEEE floating point, which
yields a non-finite value (inf or NaN) when the denominator is zero; in the
rational embedding that non-finite outcome is represented by `none`. -/
def utilization (service_times end_times : List ℚ) : Option ℚ :=
  if lastEnd end_times = 0 then none
  else some (service_times.sum / lastEnd end_times)

/-- Embedding of `throughput = num_customers / end_times[-1]`
(line 52 of src/app.py), with the same representation of the non-finite
outcome of a zero denominator as in `utilization`. -/
def throughput (num_customers : ℕ) (end_times : List ℚ) : Option ℚ :=
  if lastEnd end_times = 0 then none
  else some ((num_customers : ℚ) / lastEnd end_times)

/-- The simulation parameters (lines 17-20 of src/app.py). -/
structure SimulationConfig where
  arrival_rate : ℚ
  service_rate : ℚ
  num_customers : ℕ
  random_seed : ℕ
deriving DecidableEq

/-- The records and derived scalar metrics produced by one run. -/
structure SimulationResult where
  trace : Trace
  avg_wait : ℚ
  avg_turnaround : ℚ
  util : Option ℚ
  thru : Option ℚ
deriving DecidableEq

/-- Embedding of the computational content of the Run Simulation branch
(lines 26-52 of src/app.py): generation (which can raise as in
`generateTimes`), cumulative sum, simulation loop, and the four metrics.
The means of lines 49-50 never raise; the indexing `end_times[-1]` of
lines 51-52 raises `IndexError` on an empty array (`npLastEnd`), and on a
nonempty array the divisions follow `utilization` and `throughput`.  The
branch performs no parameter validation of its own, so `invalidParameter`
is never produced. -/
def runPipeline {σ : Type} (g : RNG σ) (cfg : SimulationConfig) (st : σ) :
    Except RunError (SimulationResult × σ) :=
  match generateTimes g cfg.arrival_rate cfg.service_rate
    cfg.num_customers cfg.random_seed st with
  | Except.error e => Except.error e
  | Except.ok p =>
    let inter := p.1.1
    let service := p.1.2
    let arrival := cumsum inter
    let T := simulate arrival service cfg.num_customers
    match npLastEnd T.end_times with
    | Except.error e => Except.error e
    | Except.ok _ =>
      Except.ok ({ trace := T
                   avg_wait := mean T.wait_times
                   avg_turnaround := mean T.turnaround_times
                   util := utilization service T.end_times
                   thru := throughput cfg.num_customers T.end_times }, p.2)

/-- Reading any index of a zero-filled list yields zero. -/
theorem getD_zeros (n i : ℕ) : (zeros n).getD i 0 = 0 := by
  induction n generalizing i with
  | zero => simp [zeros]
  | succ m ih =>
    cases i with
    | zero => simp [zeros]
    | succ k => simp [zeros, List.replicate_succ]

/-- Reading an index of a list after an in-place update. -/
theorem getD_set (l : List ℚ) (i j : ℕ) (v : ℚ) :
    (l.set i v).getD j 0 = if i = j ∧ i < l.length then v else l.getD j 0 := by
  induction l generalizing i j with
  | nil => simp
  | cons a t ih =>
    cases i with
    | zero =>
      cases j with
      | zero => simp
      | succ k => simp
    | succ m =>
      cases j with
      | zero => simp
      | succ k =>
        simp only [List.set_cons_succ, List.getD_cons_succ, ih m k, List.length_cons]
        by_cases h : m = k
        · subst h
          simp
        · simp [h]

/-- Unrolling the last iteration of the index list of the simulation loop. -/
theorem range_one_concat (k : ℕ) :
    List.range' 1 (k + 1) = List.range' 1 k ++ [k + 1] := by
  simpa [Nat.add_comm] using @List.range'_concat 1 1 k

/-- Reading an index of a tabulated list. -/
theorem getD_range_map (f : ℕ → ℚ) (n i : ℕ) (hi : i < n) :
    ((List.range n).map f).getD i 0 = f i := by
  rw [List.getD_eq_getElem _ _ (by simpa using hi)]
  simp

/-- Updating one entry of a tabulated list retabulates it. -/
theorem set_range_map (f g : ℕ → ℚ) (n j : ℕ) (hj : j < n) (v : ℚ)
    (hv : v = g j) (hfg : ∀ i, i ≠ j → f i = g i) :
    ((List.range n).map f).set j v = (List.range n).map g := by
  apply List.ext_get
  · simp
  · intro i h1 h2
    simp only [List.get_eq_getElem, List.getElem_set, List.getElem_map,
      List.getElem_range]
    by_cases h : j = i
    · subst h
      simp [hv]
    · rw [if_neg h]
      exact hfg i (fun hh => h hh.symm)

/-- The zero-filled initial arrays, viewed as a tabulation. -/
theorem zeros_eq_range_map (f : ℕ → ℚ) (n : ℕ) (hf : f 0 = 0) :
    zeros n = (List.range n).map fun i => if i ≤ 0 then f i else 0 := by
  apply List.ext_get
  · simp [zeros]
  · intro i h1 h2
    simp only [zeros, List.get_eq_getElem, List.getElem_replicate,
      List.getElem_map, List.getElem_range]
    by_cases h : i = 0
    · subst h
      simp [hf]
    · rw [if_neg (by omega)]

/-- Loop invariant of the simulation loop: after the iterations for indices
`1` to `k`, each tracking list holds the closed-form recurrence values at
indices up to `k` and zero beyond. -/
theorem sim_inv (a s : List ℚ) (n : ℕ) :
    ∀ k, k < n →
      (List.range' 1 k).foldl (simStep a s) ⟨zeros n, zeros n, zeros n, zeros n⟩
        = Trace.mk
            ((List.range n).map fun i => if i ≤ k then start_time a s i else 0)
            ((List.range n).map fun i => if i ≤ k then end_time a s i else 0)
            ((List.range n).map fun i => if i ≤ k then wait_time a s i else 0)
            ((List.range n).map fun i =>
              if i ≤ k then turnaround_time a s i else 0) := by
  intro k
  induction k with
  | zero =>
    intro hk
    simp only [List.range'_zero, List.foldl_nil]
    rw [← zeros_eq_range_map (start_time a s) n rfl,
      ← zeros_eq_range_map (end_time a s) n rfl,
      ← zeros_eq_range_map (wait_time a s) n rfl,
      ← zeros_eq_range_map (turnaround_time a s) n rfl]
  | succ k ih =>
    intro hk
    have hk' : k < n := Nat.lt_of_succ_lt hk
    rw [range_one_concat, List.foldl_append, List.foldl_cons, List.foldl_nil,
      ih hk']
    simp only [simStep, Nat.add_sub_cancel]
    rw [getD_range_map _ n k hk']
    simp only [le_refl, if_pos]
    simp only [Trace.mk.injEq]
    refine ⟨?_, ?_, ?_, ?_⟩
    · refine set_range_map _ _ n (k + 1) hk _ ?_ ?_
      · simp [start_time]
      · intro i hi
        have : i ≤ k ↔ i ≤ k + 1 := by omega
        simp [this]
    · refine set_range_map _ _ n (k + 1) hk _ ?_ ?_
      · simp [end_time]
      · intro i hi
        have : i ≤ k ↔ i ≤ k + 1 := by omega
        simp [this]
    · refine set_range_map _ _ n (k + 1) hk _ ?_ ?_
      · simp [wait_time, start_time]
      · intro i hi
        have : i ≤ k ↔ i ≤ k + 1 := by omega
        simp [this]
    · refine set_range_map _ _ n (k + 1) hk _ ?_ ?_
      · simp [turnaround_time, end_time, start_time]
      · intro i hi
        have : i ≤ k ↔ i ≤ k + 1 := by omega
        simp [this]

/-- Closed form of the simulation loop: the four tracking lists tabulate the
closed-form recurrences over indices `0` to `n - 1`. -/
theorem simulate_eq_map (a s : List ℚ) (n : ℕ) :
    simulate a s n = Trace.mk
      ((List.range n).map (start_time a s))
      ((List.range n).map (end_time a s))
      ((List.range n).map (wait_time a s))
      ((List.range n).map (turnaround_time a s)) := by
  cases n with
  | zero => rfl
  | succ m =>
    have h := sim_inv a s (m + 1) m (Nat.lt_succ_self m)
    simp only [simulate, Nat.succ_sub_one]
    rw [h]
    simp only [Trace.mk.injEq]
    refine ⟨?_, ?_, ?_, ?_⟩ <;>
      (apply List.map_congr_left; intro i hi;
        rw [if_pos (Nat.lt_succ_iff.mp (List.mem_range.mp hi))])

/-- The four tracking lists of the simulation all have length `n`. -/
theorem simulate_lengths (a s : List ℚ) (n : ℕ) :
    (simulate a s n).start_times.length = n ∧
    (simulate a s n).end_times.length = n ∧
    (simulate a s n).wait_times.length = n ∧
    (simulate a s n).turnaround_times.length = n := by
  rw [simulate_eq_map]
  simp

/-- Entry `i` of the start-time list is the closed-form start time. -/
theorem simulate_start_getD (a s : List ℚ) (n i : ℕ) (hi : i < n) :
    (simulate a s n).start_times.getD i 0 = start_time a s i := by
  rw [simulate_eq_map]
  exact getD_range_map _ n i hi

/-- Entry `i` of the end-time list is the closed-form end time. -/
theorem simulate_end_getD (a s : List ℚ) (n i : ℕ) (hi : i < n) :
    (simulate a s n).end_times.getD i 0 = end_time a s i := by
  rw [simulate_eq_map]
  exact getD_range_map _ n i hi

/-- Entry `i` of the wait-time list is the closed-form waiting time. -/
theorem simulate_wait_getD (a s : List ℚ) (n i : ℕ) (hi : i < n) :
    (simulate a s n).wait_times.getD i 0 = wait_time a s i := by
  rw [simulate_eq_map]
  exact getD_range_map _ n i hi

/-- Entry `i` of the turnaround-time list is the closed-form turnaround. -/
theorem simulate_turnaround_getD (a s : List ℚ) (n i : ℕ) (hi : i < n) :
    (simulate a s n).turnaround_times.getD i 0 = turnaround_time a s i := by
  rw [simulate_eq_map]
  exact getD_range_map _ n i hi

/-- The sum of a tabulated list as a finite sum over the indices. -/
theorem sum_range_map (f : ℕ → ℚ) (n : ℕ) :
    ((List.range n).map f).sum = ∑ i ∈ Finset.range n, f i := by
  induction n with
  | zero => simp
  | succ m ih =>
    rw [List.range_succ]
    simp [ih, Finset.sum_range_succ]

/-- The running cumulative sum preserves the length of the list. -/
theorem cumsumAux_length (acc : ℚ) (l : List ℚ) :
    (cumsumAux acc l).length = l.length := by
  induction l generalizing acc with
  | nil => simp [cumsumAux]
  | cons a t ih => simp [cumsumAux, ih]

/-- The cumulative sum preserves the length of the list. -/
theorem cumsum_length (l : List ℚ) : (cumsum l).length = l.length :=
  cumsumAux_length 0 l

/-- Entry `i` of the running cumulative sum is the accumulator plus the sum
of the entries up to and including index `i`. -/
theorem cumsumAux_getD (l : List ℚ) :
    ∀ (acc : ℚ) (i : ℕ), i < l.length →
      (cumsumAux acc l).getD i 0
        = acc + ∑ j ∈ Finset.range (i + 1), l.getD j 0 := by
  induction l with
  | nil =>
    intro acc i h
    simp at h
  | cons a t ih =>
    intro acc i h
    cases i with
    | zero => simp [cumsumAux]
    | succ k =>
      have h' : k < t.length := by simpa using h
      simp only [cumsumAux, List.getD_cons_succ]
      rw [ih (acc + a) k h']
      conv_rhs => rw [Finset.sum_range_succ']
      simp only [List.getD_cons_succ, List.getD_cons_zero]
      ring

/-- Entry `i` of `cumsum` is the strict cumulative sum up to index `i`. -/
theorem cumsum_getD (l : List ℚ) (i : ℕ) (hi : i < l.length) :
    (cumsum l).getD i 0 = ∑ j ∈ Finset.range (i + 1), l.getD j 0 := by
  simpa [cumsum] using cumsumAux_getD l 0 i hi

/-- Reading any index of a list of non-negative entries is non-negative. -/
theorem getD_nonneg (l : List ℚ) (h : ∀ x ∈ l, 0 ≤ x) (i : ℕ) :
    0 ≤ l.getD i 0 := by
  by_cases hi : i < l.length
  · rw [List.getD_eq_getElem _ _ hi]
    exact h _ (List.getElem_mem hi)
  · rw [List.getD_eq_default _ _ (by omega)]

/-- Claim C1: the simulation loop computes, for every index `i` with
`1 ≤ i < n`, `start_time[i] = max(arrival_time[i], end_time[i-1])`,
`end_time[i] = start_time[i] + service_time[i]`,
`wait_time[i] = start_time[i] - arrival_time[i]` and
`turnaround_time[i] = end_time[i] - arrival_time[i]`, while the record at
index `0` keeps all four values at `0` from the zero-initialization. -/
theorem c1_trace_recurrences (a s : List ℚ) (n i : ℕ) (hi : i < n) :
    ((simulate a s n).start_times.getD 0 0 = 0 ∧
     (simulate a s n).end_times.getD 0 0 = 0 ∧
     (simulate a s n).wait_times.getD 0 0 = 0 ∧
     (simulate a s n).turnaround_times.getD 0 0 = 0) ∧
    (1 ≤ i →
      ((simulate a s n).start_times.getD i 0
          = max (a.getD i 0) ((simulate a s n).end_times.getD (i - 1) 0) ∧
       (simulate a s n).end_times.getD i 0
          = (simulate a s n).start_times.getD i 0 + s.getD i 0 ∧
       (simulate a s n).wait_times.getD i 0
          = (simulate a s n).start_times.getD i 0 - a.getD i 0 ∧
       (simulate a s n).turnaround_times.getD i 0
          = (simulate a s n).end_times.getD i 0 - a.getD i 0)) := by
  have h0 : 0 < n := lt_of_le_of_lt (Nat.zero_le i) hi
  constructor
  · rw [simulate_start_getD a s n 0 h0, simulate_end_getD a s n 0 h0,
      simulate_wait_getD a s n 0 h0, simulate_turnaround_getD a s n 0 h0]
    exact ⟨rfl, rfl, rfl, rfl⟩
  · intro h1
    obtain ⟨j, rfl⟩ : ∃ j, i = j + 1 := ⟨i - 1, by omega⟩
    have hj : j < n := by omega
    simp only [Nat.add_sub_cancel]
    rw [simulate_start_getD a s n (j + 1) hi, simulate_end_getD a s n (j + 1) hi,
      simulate_wait_getD a s n (j + 1) hi,
      simulate_turnaround_getD a s n (j + 1) hi, simulate_end_getD a s n j hj]
    refine ⟨?_, ?_, ?_, ?_⟩ <;>
      simp [start_time, end_time, wait_time, turnaround_time]

/-- Witness for C1 at a concrete input: two customers with inter-arrival
times `[1, 1]` (so arrival times `[1, 2]`) and service times `[1, 1]`,
checked at index `1`. -/
theorem c1_trace_recurrences_witness :
    (1 < 2) ∧
    (((simulate [1, 2] [1, 1] 2).start_times.getD 0 0 = 0 ∧
      (simulate [1, 2] [1, 1] 2).end_times.getD 0 0 = 0 ∧
      (simulate [1, 2] [1, 1] 2).wait_times.getD 0 0 = 0 ∧
      (simulate [1, 2] [1, 1] 2).turnaround_times.getD 0 0 = 0) ∧
     (1 ≤ 1 →
       ((simulate [1, 2] [1, 1] 2).start_times.getD 1 0
           = max (List.getD [1, 2] 1 0)
               ((simulate [1, 2] [1, 1] 2).end_times.getD (1 - 1) 0) ∧
        (simulate [1, 2] [1, 1] 2).end_times.getD 1 0
           = (simulate [1, 2] [1, 1] 2).start_times.getD 1 0
               + List.getD [1, 1] 1 0 ∧
        (simulate [1, 2] [1, 1] 2).wait_times.getD 1 0
           = (simulate [1, 2] [1, 1] 2).start_times.getD 1 0
               - List.getD [1, 2] 1 0 ∧
        (simulate [1, 2] [1, 1] 2).turnaround_times.getD 1 0
           = (simulate [1, 2] [1, 1] 2).end_times.getD 1 0
               - List.getD [1, 2] 1 0))) :=
  ⟨by norm_num, c1_trace_recurrences [1, 2] [1, 1] 2 1 (by norm_num)⟩

/-- Claim C2 (divergence of the code from the claim): the claim states
`start_time[0] = arrival_time[0]`, but the code leaves record `0` at its
zero-initialization.  At inter-arrival times `[1]` and service times `[2]`
with one customer, the produced `start_times[0]` is `0` while
`arrival_times[0]` is `1`. -/
theorem c2_first_record_diverges :
    (simulate (cumsum [1]) [2] 1).start_times.getD 0 0 = 0 ∧
    (cumsum [1]).getD 0 0 = 1 := by
  constructor
  · rw [simulate_start_getD (cumsum [1]) [2] 1 0 (by norm_num)]
    rfl
  · norm_num [cumsum, cumsumAux]

/-- A successful `1/rate` computation yields exactly the reciprocal. -/
theorem pyInv_ok (rate sc : ℚ) (h : pyInv rate = Except.ok sc) :
    sc = 1 / rate := by
  unfold pyInv at h
  split at h
  · exact Except.noConfusion h
  · injection h with h
    exact h.symm

/-- A successful `np.random.exponential` call yields the scaled draws. -/
theorem npExponential_ok {σ : Type} (g : RNG σ) (scale : ℚ) (n : ℕ) (st : σ)
    (p : List ℚ × σ) (h : npExponential g scale n st = Except.ok p) :
    p = scaledDraws g scale n st := by
  unfold npExponential at h
  split at h
  · exact Except.noConfusion h
  · injection h with h
    exact h.symm

/-- Claim C3 counterexample: the claim that both draw sequences are produced
from freshly seeded generator states fails on the code, which seeds once;
with a generator whose state advances on each draw, the generation result
differs from the result produced under reseeding before each draw. -/
theorem c3_reseed_counterexample :
    generateTimes counterRNG 1 1 2 0 99
      ≠ generateTimesReseeded counterRNG 1 1 2 0 99 := by
  norm_num [generateTimes, generateTimesReseeded, npExponential, pyInv,
    scaledDraws, draws, counterRNG]

/-- Claim C3 (amended): the generator is seeded exactly once, before the
first draw sequence; whenever generation succeeds, the inter-arrival
sequence is drawn from the freshly seeded state, and the service-time
sequence continues the generator stream left by the inter-arrival draws
rather than starting from a fresh seed. -/
theorem c3_single_seed_stream (σ : Type) (g : RNG σ) (ar sr : ℚ)
    (n sd : ℕ) (st : σ) (inter service : List ℚ) (stf : σ)
    (h : generateTimes g ar sr n sd st = Except.ok ((inter, service), stf)) :
    inter = (scaledDraws g (1 / ar) n (g.seed sd)).1 ∧
    service = (scaledDraws g (1 / sr) n
        (scaledDraws g (1 / ar) n (g.seed sd)).2).1 := by
  simp only [generateTimes] at h
  split at h
  · exact Except.noConfusion h
  · rename_i sc1 hsc1
    split at h
    · exact Except.noConfusion h
    · rename_i p1 hp1
      split at h
      · exact Except.noConfusion h
      · rename_i sc2 hsc2
        split at h
        · exact Except.noConfusion h
        · rename_i p2 hp2
          have e1 := pyInv_ok ar sc1 hsc1
          subst e1
          have e2 := npExponential_ok g (1 / ar) n (g.seed sd) p1 hp1
          subst e2
          have e3 := pyInv_ok sr sc2 hsc2
          subst e3
          have e4 := npExponential_ok g (1 / sr) n _ p2 hp2
          subst e4
          injection h with h
          simp only [Prod.mk.injEq] at h
          obtain ⟨⟨hi, hs⟩, -⟩ := h
          exact ⟨hi.symm, hs.symm⟩

/-- Witness for C3's amended theorem at a concrete input: the counter
generator with both rates `1`, two draws, seed `0`, incoming state `99`;
generation succeeds with inter-arrival draws `[0, 1]` and service draws
`[2, 3]` continuing the stream. -/
theorem c3_single_seed_stream_witness :
    (generateTimes counterRNG 1 1 2 0 99
        = Except.ok ((([0, 1] : List ℚ), ([2, 3] : List ℚ)), 4)) ∧
    (([0, 1] : List ℚ) = (scaledDraws counterRNG (1 / 1) 2 (counterRNG.seed 0)).1 ∧
     ([2, 3] : List ℚ) = (scaledDraws counterRNG (1 / 1) 2
        (scaledDraws counterRNG (1 / 1) 2 (counterRNG.seed 0)).2).1) :=
  ⟨by norm_num [generateTimes, npExponential, pyInv, scaledDraws, draws,
      counterRNG],
   c3_single_seed_stream ℕ counterRNG 1 1 2 0 99 [0, 1] [2, 3] 4
     (by norm_num [generateTimes, npExponential, pyInv, scaledDraws, draws,
       counterRNG])⟩

/-- Claim C4: `average_wait` is the arithmetic mean of the wait times over
all `n` records (record `0` included), `average_turnaround` the mean of the
turnaround times, `utilization` the sum of all service times divided by
`end_time[n-1]`, and `throughput` is `n` divided by `end_time[n-1]` (the
divisions being defined since `end_time[n-1]` is non-zero here). -/
theorem c4_metrics (a s : List ℚ) (n : ℕ) (hn : 1 ≤ n)
    (hz : (simulate a s n).end_times.getD (n - 1) 0 ≠ 0) :
    mean (simulate a s n).wait_times
        = (∑ i ∈ Finset.range n, wait_time a s i) / n ∧
    mean (simulate a s n).turnaround_times
        = (∑ i ∈ Finset.range n, turnaround_time a s i) / n ∧
    utilization s (simulate a s n).end_times
        = some (s.sum / (simulate a s n).end_times.getD (n - 1) 0) ∧
    throughput n (simulate a s n).end_times
        = some ((n : ℚ) / (simulate a s n).end_times.getD (n - 1) 0) := by
  have hlen := (simulate_lengths a s n).2.1
  have hLast : lastEnd (simulate a s n).end_times
      = (simulate a s n).end_times.getD (n - 1) 0 := by
    rw [lastEnd, hlen]
  refine ⟨?_, ?_, ?_, ?_⟩
  · rw [mean, simulate_eq_map]
    simp [sum_range_map]
  · rw [mean, simulate_eq_map]
    simp [sum_range_map]
  · rw [utilization, hLast, if_neg hz]
  · rw [throughput, hLast, if_neg hz]

/-- Witness for C4 at a concrete input: arrival times `[1, 2]`, service
times `[1, 1]`, two customers, whose last end time is `3 ≠ 0`. -/
theorem c4_metrics_witness :
    ((1 : ℕ) ≤ 2) ∧
    ((simulate [1, 2] [1, 1] 2).end_times.getD (2 - 1) 0 ≠ 0) ∧
    (mean (simulate [1, 2] [1, 1] 2).wait_times
        = (∑ i ∈ Finset.range 2, wait_time [1, 2] [1, 1] i) / 2 ∧
     mean (simulate [1, 2] [1, 1] 2).turnaround_times
        = (∑ i ∈ Finset.range 2, turnaround_time [1, 2] [1, 1] i) / 2 ∧
     utilization [1, 1] (simulate [1, 2] [1, 1] 2).end_times
        = some (List.sum [1, 1]
            / (simulate [1, 2] [1, 1] 2).end_times.getD (2 - 1) 0) ∧
     throughput 2 (simulate [1, 2] [1, 1] 2).end_times
        = some (((2 : ℕ) : ℚ)
            / (simulate [1, 2] [1, 1] 2).end_times.getD (2 - 1) 0)) :=
  ⟨by norm_num,
   by norm_num [simulate, simStep, zeros, List.range'],
   c4_metrics [1, 2] [1, 1] 2 (by norm_num)
     (by norm_num [simulate, simStep, zeros, List.range'])⟩

/-- Claim C5 counterexample: with `arrival_rate = -1 ≤ 0` the Run Simulation
branch does not surface an InvalidParameter validation error: it fails with
the `ValueError` that `np.random.exponential` raises for the negative scale
`1/(-1)`. -/
theorem c5_library_error_counterexample :
    ((-1 : ℚ) ≤ 0) ∧
    runPipeline counterRNG ⟨-1, 3, 2, 0⟩ 99
        = Except.error RunError.valueError ∧
    RunError.valueError ≠ RunError.invalidParameter := by
  refine ⟨by norm_num, ?_, by simp⟩
  norm_num [runPipeline, generateTimes, pyInv, npExponential]

/-- Claim C5 (amended): when `arrival_rate ≤ 0`, `service_rate ≤ 0` or
`customer_count < 1`, the run fails and produces no result, but not through
an InvalidParameter validation: a zero rate raises `ZeroDivisionError` at
`1/rate` and a negative rate raises `ValueError` inside
`np.random.exponential`, both before the simulation loop runs; a zero
customer count passes generation and the vacuous loop and fails only at the
metrics step, where `end_times[-1]` raises `IndexError`. -/
theorem c5_invalid_inputs_fail (σ : Type) (g : RNG σ)
    (cfg : SimulationConfig) (st : σ)
    (h : cfg.arrival_rate ≤ 0 ∨ cfg.service_rate ≤ 0 ∨
      cfg.num_customers < 1) :
    ∃ e : RunError, e ≠ RunError.invalidParameter ∧
      runPipeline g cfg st = Except.error e := by
  by_cases h1 : cfg.arrival_rate = 0
  · refine ⟨RunError.zeroDivisionError, by simp, ?_⟩
    simp [runPipeline, generateTimes, pyInv, h1]
  by_cases h2 : cfg.arrival_rate < 0
  · refine ⟨RunError.valueError, by simp, ?_⟩
    have hsc : 1 / cfg.arrival_rate < 0 := one_div_neg.mpr h2
    simp [runPipeline, generateTimes, pyInv, npExponential, h1, h2, hsc]
  have har : 0 < cfg.arrival_rate :=
    lt_of_le_of_ne (not_lt.mp h2) (Ne.symm h1)
  have hsc1 : ¬(1 / cfg.arrival_rate < 0) :=
    not_lt.mpr (le_of_lt (one_div_pos.mpr har))
  by_cases h3 : cfg.service_rate = 0
  · refine ⟨RunError.zeroDivisionError, by simp, ?_⟩
    simp [runPipeline, generateTimes, pyInv, npExponential, h1, h2, hsc1,
      h3]
  by_cases h4 : cfg.service_rate < 0
  · refine ⟨RunError.valueError, by simp, ?_⟩
    have hsc2 : 1 / cfg.service_rate < 0 := one_div_neg.mpr h4
    simp [runPipeline, generateTimes, pyInv, npExponential, h1, h2, hsc1,
      h3, h4, hsc2]
  have hsr : 0 < cfg.service_rate :=
    lt_of_le_of_ne (not_lt.mp h4) (Ne.symm h3)
  have hsc2 : ¬(1 / cfg.service_rate < 0) :=
    not_lt.mpr (le_of_lt (one_div_pos.mpr hsr))
  have h0 : cfg.num_customers = 0 := by
    rcases h with hA | hS | hC
    · exact absurd hA (not_le.mpr har)
    · exact absurd hS (not_le.mpr hsr)
    · omega
  refine ⟨RunError.indexError, by simp, ?_⟩
  simp [runPipeline, generateTimes, pyInv, npExponential, npLastEnd,
    scaledDraws, draws, simulate, zeros, cumsum, cumsumAux, List.range'_zero,
    h0, h1, h2, hsc1, h3, h4, hsc2]

/-- Witness for C5's amended theorem at a concrete input:
`arrival_rate = -1 ≤ 0` with the counter generator; the run fails with an
error other than InvalidParameter. -/
theorem c5_invalid_inputs_fail_witness :
    ((-1 : ℚ) ≤ 0 ∨ (3 : ℚ) ≤ 0 ∨ (2 : ℕ) < 1) ∧
    (∃ e : RunError, e ≠ RunError.invalidParameter ∧
      runPipeline counterRNG ⟨-1, 3, 2, 0⟩ 99 = Except.error e) :=
  ⟨Or.inl (by norm_num),
   c5_invalid_inputs_fail ℕ counterRNG ⟨-1, 3, 2, 0⟩ 99
     (Or.inl (by norm_num))⟩

/-- Claim C6: when the last end time is zero (as happens for `n = 1` under
the literal zero-initialization), the metrics engine yields the sentinel
(`none`, standing for the non-finite float of the source) for utilization
and throughput instead of failing, and the per-record trace is still the
full `n`-record trace. -/
theorem c6_degenerate_horizon (a s : List ℚ) (n : ℕ) (hn : 1 ≤ n)
    (h : lastEnd (simulate a s n).end_times = 0) :
    utilization s (simulate a s n).end_times = none ∧
    throughput n (simulate a s n).end_times = none ∧
    (simulate a s n).start_times.length = n ∧
    (simulate a s n).end_times.length = n ∧
    (simulate a s n).wait_times.length = n ∧
    (simulate a s n).turnaround_times.length = n := by
  refine ⟨?_, ?_, (simulate_lengths a s n).1, (simulate_lengths a s n).2.1,
    (simulate_lengths a s n).2.2.1, (simulate_lengths a s n).2.2.2⟩
  · rw [utilization, if_pos h]
  · rw [throughput, if_pos h]

/-- Witness for C6 at a concrete input: a single customer with arrival time
`[1]` and service time `[2]`; the loop body never runs, the single record is
all zeros and the last end time is `0`. -/
theorem c6_degenerate_horizon_witness :
    ((1 : ℕ) ≤ 1) ∧
    (lastEnd (simulate [1] [2] 1).end_times = 0) ∧
    (utilization [2] (simulate [1] [2] 1).end_times = none ∧
     throughput 1 (simulate [1] [2] 1).end_times = none ∧
     (simulate [1] [2] 1).start_times.length = 1 ∧
     (simulate [1] [2] 1).end_times.length = 1 ∧
     (simulate [1] [2] 1).wait_times.length = 1 ∧
     (simulate [1] [2] 1).turnaround_times.length = 1) :=
  ⟨by norm_num,
   by norm_num [simulate, lastEnd, zeros, List.range'],
   c6_degenerate_horizon [1] [2] 1 (by norm_num)
     (by norm_num [simulate, lastEnd, zeros, List.range'])⟩

/-- Claim C7: for non-negative inter-arrival times, the arrival times are
the strict cumulative sum (`arrival_time[0] = inter_arrival_times[0]` and
`arrival_time[j] = arrival_time[j-1] + inter_arrival_times[j]` for `j ≥ 1`)
and the arrival-time sequence is non-decreasing in the index. -/
theorem c7_arrival_times (inter : List ℚ) (i j : ℕ)
    (hnn : ∀ x ∈ inter, 0 ≤ x) (hij : i ≤ j) (hj : j < inter.length) :
    (cumsum inter).getD 0 0 = inter.getD 0 0 ∧
    (1 ≤ j →
      (cumsum inter).getD j 0
        = (cumsum inter).getD (j - 1) 0 + inter.getD j 0) ∧
    (cumsum inter).getD i 0 ≤ (cumsum inter).getD j 0 := by
  have h0 : 0 < inter.length := by omega
  refine ⟨?_, ?_, ?_⟩
  · rw [cumsum_getD inter 0 h0]
    simp
  · intro h1
    obtain ⟨k, rfl⟩ : ∃ k, j = k + 1 := ⟨j - 1, by omega⟩
    simp only [Nat.add_sub_cancel]
    rw [cumsum_getD inter (k + 1) hj, cumsum_getD inter k (by omega)]
    simp [Finset.sum_range_succ]
  · rw [cumsum_getD inter i (by omega), cumsum_getD inter j hj]
    apply Finset.sum_le_sum_of_subset_of_nonneg
    · exact Finset.range_subset.mpr (by omega)
    · intro m _ _
      exact getD_nonneg inter hnn m

/-- Witness for C7 at a concrete input: inter-arrival times `[1, 2]`,
indices `i = 0` and `j = 1`. -/
theorem c7_arrival_times_witness :
    (∀ x ∈ [(1 : ℚ), 2], 0 ≤ x) ∧ ((0 : ℕ) ≤ 1) ∧ (1 < List.length [(1 : ℚ), 2]) ∧
    ((cumsum [1, 2]).getD 0 0 = List.getD [(1 : ℚ), 2] 0 0 ∧
     (1 ≤ 1 →
       (cumsum [1, 2]).getD 1 0
         = (cumsum [1, 2]).getD (1 - 1) 0 + List.getD [(1 : ℚ), 2] 1 0) ∧
     (cumsum [1, 2]).getD 0 0 ≤ (cumsum [1, 2]).getD 1 0) :=
  ⟨by intro x hx; fin_cases hx <;> norm_num, by norm_num, by norm_num,
   c7_arrival_times [1, 2] 0 1 (by intro x hx; fin_cases hx <;> norm_num)
     (by norm_num) (by norm_num)⟩

/-- Claim C8: for non-negative service times and every index `1 ≤ i < n` of
the produced trace, `start_time[i] ≥ arrival_time[i]`,
`start_time[i] ≥ end_time[i-1]`, `wait_time[i] ≥ 0` and
`turnaround_time[i] ≥ wait_time[i]`. -/
theorem c8_trace_invariants (a s : List ℚ) (n i : ℕ) (hs : ∀ x ∈ s, 0 ≤ x)
    (h1 : 1 ≤ i) (hi : i < n) :
    a.getD i 0 ≤ (simulate a s n).start_times.getD i 0 ∧
    (simulate a s n).end_times.getD (i - 1) 0
        ≤ (simulate a s n).start_times.getD i 0 ∧
    0 ≤ (simulate a s n).wait_times.getD i 0 ∧
    (simulate a s n).wait_times.getD i 0
        ≤ (simulate a s n).turnaround_times.getD i 0 := by
  obtain ⟨j, rfl⟩ : ∃ j, i = j + 1 := ⟨i - 1, by omega⟩
  have hj : j < n := by omega
  simp only [Nat.add_sub_cancel]
  rw [simulate_start_getD a s n (j + 1) hi, simulate_end_getD a s n j hj,
    simulate_wait_getD a s n (j + 1) hi,
    simulate_turnaround_getD a s n (j + 1) hi]
  refine ⟨le_max_left _ _, le_max_right _ _, ?_, ?_⟩
  · rw [wait_time]
    exact sub_nonneg.mpr (le_max_left _ _)
  · rw [wait_time, turnaround_time]
    have hse : end_time a s (j + 1)
        = start_time a s (j + 1) + s.getD (j + 1) 0 := by
      rw [end_time, start_time]
    rw [hse]
    have := getD_nonneg s hs (j + 1)
    linarith

/-- Witness for C8 at a concrete input: arrival times `[1, 2]`, service
times `[1, 1]`, two customers, index `1`. -/
theorem c8_trace_invariants_witness :
    (∀ x ∈ [(1 : ℚ), 1], 0 ≤ x) ∧ ((1 : ℕ) ≤ 1) ∧ (1 < 2) ∧
    (List.getD [(1 : ℚ), 2] 1 0 ≤ (simulate [1, 2] [1, 1] 2).start_times.getD 1 0 ∧
     (simulate [1, 2] [1, 1] 2).end_times.getD (1 - 1) 0
         ≤ (simulate [1, 2] [1, 1] 2).start_times.getD 1 0 ∧
     0 ≤ (simulate [1, 2] [1, 1] 2).wait_times.getD 1 0 ∧
     (simulate [1, 2] [1, 1] 2).wait_times.getD 1 0
         ≤ (simulate [1, 2] [1, 1] 2).turnaround_times.getD 1 0) :=
  ⟨by intro x hx; fin_cases hx <;> norm_num, by norm_num, by norm_num,
   c8_trace_invariants [1, 2] [1, 1] 2 1
     (by intro x hx; fin_cases hx <;> norm_num) (by norm_num) (by norm_num)⟩

/-- Claim C9: the pipeline is deterministic and reproducible: two runs with
the same configuration produce the identical outcome (identical records and
identical metric values whenever the run succeeds), regardless of the
global generator state left by earlier runs, because the single seeding
call overwrites that state. -/
theorem c9_reproducible (σ : Type) (g : RNG σ) (cfg : SimulationConfig)
    (st1 st2 : σ) :
    runPipeline g cfg st1 = runPipeline g cfg st2 := rfl

/-- Claim C10: for non-negative service times the end-time sequence of the
produced trace is non-decreasing: `end_time[i-1] ≤ end_time[i]` for every
`1 ≤ i < n`, including `i = 1` against the zero-initialized `end_time[0]`. -/
theorem c10_end_times_monotone (a s : List ℚ) (n i : ℕ)
    (hs : ∀ x ∈ s, 0 ≤ x) (h1 : 1 ≤ i) (hi : i < n) :
    (simulate a s n).end_times.getD (i - 1) 0
        ≤ (simulate a s n).end_times.getD i 0 := by
  obtain ⟨j, rfl⟩ : ∃ j, i = j + 1 := ⟨i - 1, by omega⟩
  have hj : j < n := by omega
  simp only [Nat.add_sub_cancel]
  rw [simulate_end_getD a s n (j + 1) hi, simulate_end_getD a s n j hj,
    end_time]
  have h2 := getD_nonneg s hs (j + 1)
  have h3 : end_time a s j ≤ max (a.getD (j + 1) 0) (end_time a s j) :=
    le_max_right _ _
  linarith

/-- Witness for C10 at a concrete input: arrival times `[1, 2]`, service
times `[1, 1]`, two customers, index `1`. -/
theorem c10_end_times_monotone_witness :
    (∀ x ∈ [(1 : ℚ), 1], 0 ≤ x) ∧ ((1 : ℕ) ≤ 1) ∧ (1 < 2) ∧
    ((simulate [1, 2] [1, 1] 2).end_times.getD (1 - 1) 0
        ≤ (simulate [1, 2] [1, 1] 2).end_times.getD 1 0) :=
  ⟨by intro x hx; fin_cases hx <;> norm_num, by norm_num, by norm_num,
   c10_end_times_monotone [1, 2] [1, 1] 2 1
     (by intro x hx; fin_cases hx <;> norm_num) (by norm_num) (by norm_num)⟩

end IQSSA
